import Mathlib

/-!
Verification development for the clavel periodogram / feature-extraction core
(lombscargle.py, periodicfeature.py, nonperiodicfeature.py, starfeatures.py).

Floating-point values are modelled as exact rationals.  The numpy/scipy
primitives the code calls (mean, population std, median, argmax, argmin,
linspace, scoreatpercentile) are embedded directly from their documented
semantics.  scipy.signal.lombscargle itself is an external numerical
primitive; the periodogram driver is therefore parameterised by the function
computing the power spectrum from (times, magnitudes, frequencies).

Comparisons of the form "d < mean + std" are embedded sqrt-free through the
exact equivalence d < m + sqrt v <-> d - m < 0 or (d - m)^2 < v (for v >= 0),
so every definition stays executable on rationals.  Where the code returns a
square root itself (the std and skew feature values) the embedding takes the
square-root function as an explicit parameter; no claim below depends on its
values.
-/

namespace Clavel

/-- Error kinds raised by the embedded code: IndexError, the ZeroDivisionError
on a degenerate time span, and the ValueError / ZeroDivisionError raised by the
numerical routines on degenerate series. -/
inductive Err where
  | indexOutOfRange
  | degenerateTimeSpan
  | valueError
  | invalidInput
deriving DecidableEq

/-- np.mean of a list of rationals (empty list: 0/0 = 0 stands in for the nan
numpy produces; every use below is guarded exactly as in the code). -/
def qmean (l : List ℚ) : ℚ := l.sum / (l.length : ℚ)

/-- Population variance, the square of np.std (ddof = 0). -/
def qvar (l : List ℚ) : ℚ := qmean (l.map (fun x => (x - qmean l) ^ 2))

/-- The successive time gaps built by the loops
"for i in range(1, len(t)): intervals.append(t[i] - t[i-1])". -/
def intervals (ts : List ℚ) : List ℚ :=
  List.zipWith (fun a b => a - b) ts.tail ts

/-- Loop body of LombScargle.discard_first_measures_far_in_time.  The third
argument is the suffix intervals[i:] still to be examined, so that
new_m = np.mean(intervals_a[i:]) is its mean; dev = new_m + 0.1 * new_m is
inlined, and the condition is the code's
"m < new_m + dev and m > new_m - dev". -/
def dfmAux : ℚ → ℕ → List ℚ → ℕ
  | _, _, [] => 0
  | m, i, x :: rest =>
    if m < qmean (x :: rest) + (qmean (x :: rest) + (1 / 10) * qmean (x :: rest)) ∧
        qmean (x :: rest) - (qmean (x :: rest) + (1 / 10) * qmean (x :: rest)) < m then
      i - 1
    else
      dfmAux (qmean (x :: rest)) (i + 1) rest

/-- LombScargle.discard_first_measures_far_in_time: m starts as the mean of
all gaps and the scan starts at i = 1; returns 0 when no stabilisation point
is found. -/
def discardFirstMeasuresFarInTime (ts : List ℚ) : ℕ :=
  dfmAux (qmean (intervals ts)) 1 ((intervals ts).drop 1)

/-- The stopping condition the loop actually tests at step i: the running
reference (which always equals the mean of g[i-1:]) lies strictly between
new_m - dev and new_m + dev for new_m the mean of g[i:] and
dev = new_m + 0.1 * new_m. -/
def bandProp (g : List ℚ) (i : ℕ) : Prop :=
  qmean (g.drop (i - 1)) <
      qmean (g.drop i) + (qmean (g.drop i) + (1 / 10) * qmean (g.drop i)) ∧
    qmean (g.drop i) - (qmean (g.drop i) + (1 / 10) * qmean (g.drop i)) <
      qmean (g.drop (i - 1))

instance (g : List ℚ) (i : ℕ) : Decidable (bandProp g i) := by
  unfold bandProp; infer_instance

/-- The amended claim for the leading-outlier rejection, stated without the
loop: return j - 1 for the first index j with 1 <= j < len(gaps) whose
running reference mean(g[j-1:]) lies in the band of half-width
dev = new_m + 0.1 * new_m around new_m = mean(g[j:]); return 0 if no such j
exists. -/
def rejectLeadingOutliersAmended (ts : List ℚ) : ℕ :=
  match ((List.range' 1 ((intervals ts).length - 1)).filter
      (fun i => decide (bandProp (intervals ts) i))).head? with
  | some i => i - 1
  | none => 0

/-- Modelled from the spec: the procedure C2 describes, identical to the code
except that the stopping band is plus-or-minus 10 percent of the suffix mean
(dev = 0.1 * new_m), used only to compare the claim against the code. -/
def tenPctAux : ℚ → ℕ → List ℚ → ℕ
  | _, _, [] => 0
  | m, i, x :: rest =>
    if m < qmean (x :: rest) + (1 / 10) * qmean (x :: rest) ∧
        qmean (x :: rest) - (1 / 10) * qmean (x :: rest) < m then
      i - 1
    else
      tenPctAux (qmean (x :: rest)) (i + 1) rest

/-- Modelled from the spec: reject_leading_outliers with a true plus-or-minus
10 percent stabilisation band, as the claim states it. -/
def rejectLeadingOutliersTenPercent (ts : List ℚ) : ℕ :=
  tenPctAux (qmean (intervals ts)) 1 ((intervals ts).drop 1)

/-- Scan underlying np.argmax: keep the first occurrence of the maximum
(update only on a strictly larger value). -/
def argmaxAux : List ℚ → ℕ → ℚ → ℕ → ℕ
  | [], bi, _, _ => bi
  | x :: xs, bi, bv, i => if bv < x then argmaxAux xs i x (i + 1) else argmaxAux xs bi bv (i + 1)

/-- np.argmax on a list of rationals (first occurrence of the maximum;
np.argmax raises on an empty array, every use below is guarded). -/
def npArgmax : List ℚ → ℕ
  | [] => 0
  | x :: xs => argmaxAux xs 0 x 1

/-- Scan underlying np.argmin (first occurrence of the minimum). -/
def argminAux : List ℚ → ℕ → ℚ → ℕ → ℕ
  | [], bi, _, _ => bi
  | x :: xs, bi, bv, i => if x < bv then argminAux xs i x (i + 1) else argminAux xs bi bv (i + 1)

/-- np.argmin on a list of rationals. -/
def npArgmin : List ℚ → ℕ
  | [] => 0
  | x :: xs => argminAux xs 0 x 1

/-- Loop of LombScargle.get_index_max_values: zero out the previously found
maximum in the working copy and take the argmax again, k more times. -/
def gimvAux : List ℚ → ℕ → ℕ → List ℕ
  | _, _, 0 => []
  | copy, last, k + 1 =>
    let c := copy.set last 0
    npArgmax c :: gimvAux c (npArgmax c) k

/-- LombScargle.get_index_max_values: the first argmax of the periodgram
followed by number_of_freq - 1 argmax-and-suppress steps. -/
def getIndexMaxValues (pgram : List ℚ) (numberOfFreq : ℕ) : List ℕ :=
  npArgmax pgram :: gimvAux pgram (npArgmax pgram) (numberOfFreq - 1)

/-- The LSProperties container (lombscargle.py).  max_freq is set to 0.0 by
the constructor and is never written again anywhere in the repository;
max_freq_calculated is the attribute calculate_periodgram_from_curve
assigns. -/
structure LSProperties where
  first_freq : ℚ
  max_freq_to_seek : ℚ
  freq_to_calculate : ℕ
  number_of_freq : ℕ
  max_freq : ℚ
  max_freq_calculated : ℚ
  index_max_values : List ℕ
  pgram : List ℚ
deriving DecidableEq

/-- LSProperties.__init__ with the four constructor arguments: max_freq
starts at 0.0, the periodgram and the peak indexes start empty. -/
def mkLSProperties (firstFreq maxFreqToSeek : ℚ) (freqToCalculate numberOfFreq : ℕ) :
    LSProperties :=
  { first_freq := firstFreq
    max_freq_to_seek := maxFreqToSeek
    freq_to_calculate := freqToCalculate
    number_of_freq := numberOfFreq
    max_freq := 0
    max_freq_calculated := 0
    index_max_values := []
    pgram := [] }

/-- PeriodicFeature.__get_freq_from_index: raises IndexError when the index
is not below the periodgram length, otherwise
first_freq + index * (max_freq - first_freq) / freq_to_calculate, reading
the max_freq attribute of the shared LSProperties. -/
def getFreqFromIndex (pgram : List ℚ) (ls : LSProperties) (index : ℕ) : Except Err ℚ :=
  if pgram.length ≤ index then .error .indexOutOfRange
  else
    .ok (ls.first_freq +
      (index : ℚ) * ((ls.max_freq - ls.first_freq) / (ls.freq_to_calculate : ℚ)))

/-- PeriodicFeature.get_fund_freq with __get_freq_n inlined: checks
n < num_freq, reads index_max_values[n] (IndexError when absent) and
translates it through __get_freq_from_index; the name is Fund_Freq_n. -/
def getFundFreq (pgram : List ℚ) (ls : LSProperties) (numFreq n : ℕ) :
    Except Err (ℚ × String) :=
  if n < numFreq then
    if n < ls.index_max_values.length then
      (getFreqFromIndex pgram ls (ls.index_max_values.getD n 0)).map
        (fun q => (q, "Fund_Freq_" ++ toString n))
    else .error .indexOutOfRange
  else .error .indexOutOfRange

/-- PeriodicFeature.get_amplitude with __get_amplitude_n inlined: checks
n < len(index_max_values) and returns pgram[index_max_values[n]] (the
unchecked array access raises IndexError when the stored index is out of
the periodgram). -/
def getAmplitude (pgram : List ℚ) (ls : LSProperties) (n : ℕ) :
    Except Err (ℚ × String) :=
  if n < ls.index_max_values.length then
    if ls.index_max_values.getD n 0 < pgram.length then
      .ok (pgram.getD (ls.index_max_values.getD n 0) 0, "Fund_Amp_" ++ toString n)
    else .error .indexOutOfRange
  else .error .indexOutOfRange

/-- PeriodicFeature.__get_amp_harm_n: raises IndexError when
num_freq >= len(index_max_values); otherwise the harmonic index is
index_max_values[num_freq] * (harm + 1) and the amplitude is the periodgram
value there when that index is inside the periodgram, else 0. -/
def getAmpHarmN (pgram : List ℚ) (ls : LSProperties) (numFreq harm : ℕ) : Except Err ℚ :=
  if ls.index_max_values.length ≤ numFreq then .error .indexOutOfRange
  else
    .ok
      (if ls.index_max_values.getD numFreq 0 * (harm + 1) < pgram.length then
        pgram.getD (ls.index_max_values.getD numFreq 0 * (harm + 1)) 0
      else 0)

/-- PeriodicFeature.get_amplitude_firsts_harm: the loop for n in range(4) is
unrolled; the names are Amp_Harm_0 .. Amp_Harm_3. -/
def getAmplitudeFirstsHarm (pgram : List ℚ) (ls : LSProperties) (fundFreq : ℕ) :
    Except Err (List ℚ × List String) :=
  (getAmpHarmN pgram ls fundFreq 0).bind fun a0 =>
  (getAmpHarmN pgram ls fundFreq 1).bind fun a1 =>
  (getAmpHarmN pgram ls fundFreq 2).bind fun a2 =>
  (getAmpHarmN pgram ls fundFreq 3).bind fun a3 =>
  .ok ([a0, a1, a2, a3], ["Amp_Harm_0", "Amp_Harm_1", "Amp_Harm_2", "Amp_Harm_3"])

/-- PeriodicFeature.freq_y_offset: offset starts at pgram[0] (IndexError on
an empty periodgram) and the loop keeps the minimum value. -/
def freqYOffset (pgram : List ℚ) : Except Err (ℚ × String) :=
  match pgram with
  | [] => .error .indexOutOfRange
  | x :: _ => .ok (pgram.foldl (fun o v => if v < o then v else o) x, "Freq_Offset")

/-- Whether an Except value is a success. -/
def exceptIsOk : Except Err α → Bool
  | .ok _ => true
  | .error _ => false

/-- np.linspace(a, b, n): n points a + i * (b - a) / (n - 1), endpoint
included. -/
def linspace (a b : ℚ) (n : ℕ) : List ℚ :=
  (List.range n).map fun (i : ℕ) => a + (i : ℚ) * ((b - a) / ((n : ℚ) - 1))

/-- The state LombScargle.calculate_periodgram_from_curve leaves behind: the
updated LSProperties (max_freq_calculated, pgram and index_max_values are
assigned; max_freq is not) together with the returned freqs and the stored
nmags and ntimes. -/
structure CalcResult where
  lsp : LSProperties
  freqs : List ℚ
  nmags : List ℚ
  ntimes : List ℚ
deriving DecidableEq

/-- LombScargle.calculate_periodgram_from_curve.  scipy.signal.lombscargle is
the external primitive lombscargleFn (times, magnitudes, freqs to power
spectrum).  The IndexError on an empty series, the ZeroDivisionError on a
zero effective time span (named DegenerateTimeSpan by the spec) and the
ValueError np.argmax raises on an empty periodgram are the error branches. -/
def calculatePeriodgramFromCurve (ls : LSProperties)
    (lombscargleFn : List ℚ → List ℚ → List ℚ → List ℚ)
    (unixTimes mags : List ℚ) : Except Err CalcResult :=
  let firstMeasure := discardFirstMeasuresFarInTime unixTimes
  if unixTimes.isEmpty then .error .indexOutOfRange
  else
    let firstTime := unixTimes.getD firstMeasure 0
    let ntimes := 0 :: ((unixTimes.drop (firstMeasure + 1)).map fun t => t - firstTime)
    let nmags := (mags.take unixTimes.length).drop firstMeasure
    if unixTimes.getLastD 0 - unixTimes.getD firstMeasure 0 = 0 then
      .error .degenerateTimeSpan
    else
      let sampleFreq := ((unixTimes.length : ℚ) - 1 - (firstMeasure : ℚ)) /
        (unixTimes.getLastD 0 - unixTimes.getD firstMeasure 0)
      let maxFreqSeek := sampleFreq / 2
      let maxFreqCalc :=
        if ls.max_freq_to_seek < maxFreqSeek then maxFreqSeek else ls.max_freq_to_seek
      let freqs := linspace (1 / 100) maxFreqCalc ls.freq_to_calculate
      let pgram := lombscargleFn ntimes nmags freqs
      if pgram.isEmpty then .error .valueError
      else
        .ok ⟨{ ls with
            max_freq_calculated := maxFreqCalc
            index_max_values := getIndexMaxValues pgram ls.number_of_freq
            pgram := pgram }, freqs, nmags, ntimes⟩

/-- The Nyquist-style estimate of claim C7:
(N - 1 - first_valid_index) / (times[last] - times[first_valid_index]). -/
def sampleFreqOf (ts : List ℚ) : ℚ :=
  ((ts.length : ℚ) - 1 - (discardFirstMeasuresFarInTime ts : ℚ)) /
    (ts.getLastD 0 - ts.getD (discardFirstMeasuresFarInTime ts) 0)

/-- Insertion step of the value sort underlying np.sort / np.median /
scipy.stats.scoreatpercentile. -/
def qsortInsert (x : ℚ) : List ℚ → List ℚ
  | [] => [x]
  | y :: ys => if x ≤ y then x :: y :: ys else y :: qsortInsert x ys

/-- Ascending value sort (insertion sort; stability is irrelevant for the
value statistics computed from it). -/
def qsort (l : List ℚ) : List ℚ := l.foldr qsortInsert []

/-- np.median: middle element of the sorted values for odd length, mean of
the two middle elements for even length. -/
def qmedian (l : List ℚ) : ℚ :=
  if l.length % 2 = 1 then (qsort l).getD (l.length / 2) 0
  else ((qsort l).getD (l.length / 2 - 1) 0 + (qsort l).getD (l.length / 2) 0) / 2

/-- scipy.stats.scoreatpercentile: position per * (n - 1) / 100 into the
sorted values, linearly interpolating between the neighbouring order
statistics when the position is fractional. -/
def scoreAtPercentile (l : List ℚ) (per : ℚ) : ℚ :=
  (qsort l).getD (per * ((l.length : ℚ) - 1) / 100).floor.toNat 0 +
    ((qsort l).getD ((per * ((l.length : ℚ) - 1) / 100).floor.toNat + 1) 0 -
        (qsort l).getD (per * ((l.length : ℚ) - 1) / 100).floor.toNat 0) *
      (per * ((l.length : ℚ) - 1) / 100 - ((per * ((l.length : ℚ) - 1) / 100).floor : ℚ))

/-- The gap filter d < interval_avg + interval_std of
NonPeriodicFeature.max_slope and pair_slope_trend, encoded sqrt-free:
d < m + sqrt v is d - m < 0 or (d - m)^2 < v since sqrt v is nonnegative
(v is the population variance of the gaps). -/
def gapOk (d avg v : ℚ) : Prop := d - avg < 0 ∨ (d - avg) ^ 2 < v

instance (d avg v : ℚ) : Decidable (gapOk d avg v) := by
  unfold gapOk; infer_instance

/-- NonPeriodicFeature.amplitude_dif: half the difference between maximum
and minimum magnitude (read through np.argmax / np.argmin as the code
does). -/
def amplitudeDif (nmags : List ℚ) : ℚ × String :=
  ((nmags.getD (npArgmax nmags) 0 - nmags.getD (npArgmin nmags) 0) / 2, "Amp_diff")

/-- NonPeriodicFeature.beyond1st: the count of points with
mag < avg - std or mag > avg + std is the count with (mag - avg)^2 > var,
encoded sqrt-free; the percentage is only computed when the count is
positive (else 0, the same value). -/
def beyond1st (nmags : List ℚ) : ℚ × String :=
  ((if 0 < (nmags.filter fun x => decide (qvar nmags < (x - qmean nmags) ^ 2)).length then
      ((nmags.filter fun x => decide (qvar nmags < (x - qmean nmags) ^ 2)).length : ℚ) *
        100 / (nmags.length : ℚ)
    else 0), "Beyond1st")

/-- NonPeriodicFeature.linear_trend: the ordinary least-squares slope
computed by scipy.stats.linregress, sum((x - mean x) * (y - mean y)) over
sum((x - mean x)^2). -/
def linearTrend (ntimes nmags : List ℚ) : ℚ × String :=
  ((List.zipWith (fun x y => (x - qmean ntimes) * (y - qmean nmags)) ntimes nmags).sum /
      (ntimes.map fun x => (x - qmean ntimes) ^ 2).sum, "Linear_Tren")

/-- NonPeriodicFeature.max_slope: the loop keeps the largest signed slope
(current_slope > max_slp, no absolute value) over the gap-filtered
consecutive pairs, starting from 0. -/
def maxSlope (nmags ntimes : List ℚ) : ℚ × String :=
  ((List.range (ntimes.length - 1)).foldl
    (fun ms (n : ℕ) =>
      if gapOk (ntimes.getD (n + 1) 0 - ntimes.getD n 0)
          (qmean (intervals ntimes)) (qvar (intervals ntimes)) then
        if ms < (nmags.getD (n + 1) 0 - nmags.getD n 0) /
            (ntimes.getD (n + 1) 0 - ntimes.getD n 0) then
          (nmags.getD (n + 1) 0 - nmags.getD n 0) / (ntimes.getD (n + 1) 0 - ntimes.getD n 0)
        else ms
      else ms) 0, "Max_Slope")

/-- Modelled from the spec: claim C4's max_slope, the maximum of the
absolute slopes over the gap-filtered consecutive pairs. -/
def maxSlopeClaim (nmags ntimes : List ℚ) : ℚ :=
  (List.range (ntimes.length - 1)).foldl
    (fun ms (n : ℕ) =>
      if gapOk (ntimes.getD (n + 1) 0 - ntimes.getD n 0)
          (qmean (intervals ntimes)) (qvar (intervals ntimes)) then
        max ms |(nmags.getD (n + 1) 0 - nmags.getD n 0) /
          (ntimes.getD (n + 1) 0 - ntimes.getD n 0)|
      else ms) 0

/-- NonPeriodicFeature.median_absolute_deviation: the median of the absolute
discrepancies from the median. -/
def medianAbsoluteDeviation (nmags : List ℚ) : ℚ × String :=
  (qmedian (nmags.map fun x => |x - qmedian nmags|), "Median_Abs_Dev")

/-- NonPeriodicFeature.median_buffer_range_percentage: the loop runs n over
range(len - 1) (the last point is never examined), counts the values OUT of
[median - 0.1 median, median + 0.1 median], and divides by the full
length. -/
def medianBufferRangePercentage (nmags : List ℚ) : ℚ × String :=
  ((((nmags.take (nmags.length - 1)).filter fun x =>
      decide (x < qmedian nmags - (1 / 10) * qmedian nmags) ||
        decide (qmedian nmags + (1 / 10) * qmedian nmags < x)).length : ℚ) *
    100 / (nmags.length : ℚ), "Median_Buff_Range_Percent")

/-- Modelled from the spec: claim C3's reading, the percentage over all N
points of those within plus-or-minus 0.1 median of the median. -/
def medianBufferClaim (nmags : List ℚ) : ℚ :=
  100 * ((nmags.filter fun x =>
      decide (qmedian nmags - (1 / 10) * qmedian nmags ≤ x) &&
        decide (x ≤ qmedian nmags + (1 / 10) * qmedian nmags)).length : ℚ) /
    (nmags.length : ℚ)

/-- NonPeriodicFeature.pair_slope_trend: number = min(30, len), the loop
runs n from len - number to len - 2, counts the gap-filtered pairs with
positive slope and divides by number - 1. -/
def pairSlopeTrend (nmags ntimes : List ℚ) : ℚ × String :=
  (((List.range' (ntimes.length - (if ntimes.length < 30 then ntimes.length else 30))
        ((if ntimes.length < 30 then ntimes.length else 30) - 1)).filter
      (fun (n : ℕ) =>
        decide (gapOk (ntimes.getD (n + 1) 0 - ntimes.getD n 0)
          (qmean (intervals ntimes)) (qvar (intervals ntimes))) &&
        decide (0 < (nmags.getD (n + 1) 0 - nmags.getD n 0) /
          (ntimes.getD (n + 1) 0 - ntimes.getD n 0)))).length * 100 /
    (((if ntimes.length < 30 then ntimes.length else 30) : ℚ) - 1), "Pair_Slope_Trend")

/-- NonPeriodicFeature.percent_amplitude: the larger of max - median and
median - min, as a percentage of max - min. -/
def percentAmplitude (nmags : List ℚ) : ℚ × String :=
  ((if qmedian nmags - nmags.getD (npArgmin nmags) 0 <
        nmags.getD (npArgmax nmags) 0 - qmedian nmags then
      nmags.getD (npArgmax nmags) 0 - qmedian nmags
    else qmedian nmags - nmags.getD (npArgmin nmags) 0) * 100 /
    (nmags.getD (npArgmax nmags) 0 - nmags.getD (npArgmin nmags) 0), "Percent_Amplitude")

/-- NonPeriodicFeature.percent_difference_flux_percentile:
median * 100 / (P95 - P5). -/
def percentDifferenceFluxPercentile (nmags : List ℚ) : ℚ × String :=
  (qmedian nmags * 100 / (scoreAtPercentile nmags 95 - scoreAtPercentile nmags 5),
    "Percent_Diff_flux_Percentile")

/-- scipy.stats.skew (biased): m3 / m2^(3/2), written m3 / (m2 * sqrt m2)
with the square root abstract. -/
def skewFeat (sq : ℚ → ℚ) (nmags : List ℚ) : ℚ × String :=
  (qmean (nmags.map fun x => (x - qmean nmags) ^ 3) /
      (qmean (nmags.map fun x => (x - qmean nmags) ^ 2) *
        sq (qmean (nmags.map fun x => (x - qmean nmags) ^ 2))), "Skew")

/-- scipy.stats.kurtosis (Fisher, biased): m4 / m2^2 - 3. -/
def kurtosisFeat (nmags : List ℚ) : ℚ × String :=
  (qmean (nmags.map fun x => (x - qmean nmags) ^ 4) /
      qmean (nmags.map fun x => (x - qmean nmags) ^ 2) ^ 2 - 3, "Kurtosis")

/-- np.std of the magnitudes, the square root of the population variance,
with the square root abstract. -/
def stdFeat (sq : ℚ → ℚ) (nmags : List ℚ) : ℚ × String :=
  (sq (qvar nmags), "Stand_Dev")

/-- NonPeriodicFeature.__flux_percentile_ratio_midXX. -/
def fluxPercentileRatioMid (nmags : List ℚ) (lower upper : ℚ) : ℚ :=
  (scoreAtPercentile nmags upper - scoreAtPercentile nmags lower) /
    (scoreAtPercentile nmags 95 - scoreAtPercentile nmags 5)

def fluxPercentileRatioMid20 (nmags : List ℚ) : ℚ × String :=
  (fluxPercentileRatioMid nmags 40 60, "Flux_Percentile_Ratio_Mid20")

def fluxPercentileRatioMid35 (nmags : List ℚ) : ℚ × String :=
  (fluxPercentileRatioMid nmags (65 / 2) (135 / 2), "Flux_Percentile_Ratio_Mid35")

def fluxPercentileRatioMid50 (nmags : List ℚ) : ℚ × String :=
  (fluxPercentileRatioMid nmags 25 75, "Flux_Percentile_Ratio_Mid50")

def fluxPercentileRatioMid65 (nmags : List ℚ) : ℚ × String :=
  (fluxPercentileRatioMid nmags (35 / 2) (165 / 2), "Flux_Percentile_Ratio_Mid65")

def fluxPercentileRatioMid80 (nmags : List ℚ) : ℚ × String :=
  (fluxPercentileRatioMid nmags 10 90, "Flux_Percentile_Ratio_Mid80")

/-- StarsFeatures.save_feature with the for n in range(3) loop unrolled.
The periodic accessors and freq_y_offset can raise; the guard before the
non-periodic block models the ValueError / ZeroDivisionError / IndexError
the numeric routines raise on degenerate series (np.argmax of an empty
array, pair_slope_trend's division by number - 1 = 0 when fewer than 2
points remain, magnitude list shorter than the time list). -/
def saveFeature (sq : ℚ → ℚ) (pgram : List ℚ) (ls : LSProperties) (numFreq : ℕ)
    (nmags ntimes : List ℚ) : Except Err (List ℚ × List String) :=
  (getFundFreq pgram ls numFreq 0).bind fun f0 =>
  (getAmplitude pgram ls 0).bind fun a0 =>
  (getAmplitudeFirstsHarm pgram ls 0).bind fun h0 =>
  (getFundFreq pgram ls numFreq 1).bind fun f1 =>
  (getAmplitude pgram ls 1).bind fun a1 =>
  (getAmplitudeFirstsHarm pgram ls 1).bind fun h1 =>
  (getFundFreq pgram ls numFreq 2).bind fun f2 =>
  (getAmplitude pgram ls 2).bind fun a2 =>
  (getAmplitudeFirstsHarm pgram ls 2).bind fun h2 =>
  (freqYOffset pgram).bind fun off =>
  if ntimes.length < 2 ∨ nmags.length < ntimes.length then .error .invalidInput
  else
    .ok
      (f0.1 :: a0.1 :: (h0.1 ++ f1.1 :: a1.1 :: (h1.1 ++ f2.1 :: a2.1 :: (h2.1 ++
          off.1 :: [(amplitudeDif nmags).1, (beyond1st nmags).1,
            (linearTrend ntimes nmags).1, (maxSlope nmags ntimes).1,
            (medianAbsoluteDeviation nmags).1, (medianBufferRangePercentage nmags).1,
            (pairSlopeTrend nmags ntimes).1, (percentAmplitude nmags).1,
            (percentDifferenceFluxPercentile nmags).1, (skewFeat sq nmags).1,
            (kurtosisFeat nmags).1, (stdFeat sq nmags).1,
            (fluxPercentileRatioMid20 nmags).1, (fluxPercentileRatioMid35 nmags).1,
            (fluxPercentileRatioMid50 nmags).1, (fluxPercentileRatioMid65 nmags).1,
            (fluxPercentileRatioMid80 nmags).1]))),
        f0.2 :: a0.2 :: (h0.2 ++ f1.2 :: a1.2 :: (h1.2 ++ f2.2 :: a2.2 :: (h2.2 ++
          off.2 :: [(amplitudeDif nmags).2, (beyond1st nmags).2,
            (linearTrend ntimes nmags).2, (maxSlope nmags ntimes).2,
            (medianAbsoluteDeviation nmags).2, (medianBufferRangePercentage nmags).2,
            (pairSlopeTrend nmags ntimes).2, (percentAmplitude nmags).2,
            (percentDifferenceFluxPercentile nmags).2, (skewFeat sq nmags).2,
            (kurtosisFeat nmags).2, (stdFeat sq nmags).2,
            (fluxPercentileRatioMid20 nmags).2, (fluxPercentileRatioMid35 nmags).2,
            (fluxPercentileRatioMid50 nmags).2, (fluxPercentileRatioMid65 nmags).2,
            (fluxPercentileRatioMid80 nmags).2]))))

/-! ### Theorems -/

lemma dfmAux_cons (m : ℚ) (i : ℕ) (x : ℚ) (rest : List ℚ) :
    dfmAux m i (x :: rest) =
      if m < qmean (x :: rest) + (qmean (x :: rest) + (1 / 10) * qmean (x :: rest)) ∧
          qmean (x :: rest) - (qmean (x :: rest) + (1 / 10) * qmean (x :: rest)) < m then
        i - 1
      else
        dfmAux (qmean (x :: rest)) (i + 1) rest := rfl

lemma dfmAux_drop (g : List ℚ) :
    ∀ n i, 1 ≤ i → g.length - i = n →
      dfmAux (qmean (g.drop (i - 1))) i (g.drop i) =
        (match ((List.range' i n).filter (fun j => decide (bandProp g j))).head? with
          | some j => j - 1
          | none => 0) := by
  intro n
  induction n with
  | zero =>
    intro i _ hn
    have hd : g.drop i = [] := List.drop_eq_nil_of_le (by omega)
    rw [hd]
    rfl
  | succ n ih =>
    intro i hi hn
    have hlt : i < g.length := by omega
    have hd : g.drop i = g[i] :: g.drop (i + 1) := List.drop_eq_getElem_cons hlt
    rw [hd, dfmAux_cons, ← hd, List.range'_succ, List.filter_cons]
    by_cases hb : bandProp g i
    · have hb' := hb
      unfold bandProp at hb'
      rw [if_pos hb']
      simp [hb]
    · have hb' : ¬(qmean (g.drop (i - 1)) <
          qmean (g.drop i) + (qmean (g.drop i) + (1 / 10) * qmean (g.drop i)) ∧
        qmean (g.drop i) - (qmean (g.drop i) + (1 / 10) * qmean (g.drop i)) <
          qmean (g.drop (i - 1))) := hb
      rw [if_neg hb']
      have := ih (i + 1) (by omega) (by omega)
      simp only [Nat.add_sub_cancel] at this
      rw [this]
      simp [hb]

/-- Claim C2 (amended): discard_first_measures_far_in_time computes the gaps,
starts from the mean of all gaps, and stops at the first index i (1 <= i <
len(gaps)) whose running reference mean(g[i-1:]) lies strictly within
new_m - dev and new_m + dev, where new_m = mean(g[i:]) and
dev = new_m + 0.1 * new_m (a band of 110 percent of the suffix mean, not the
10 percent the claim states), returning i - 1; it returns 0 when no such
index exists. -/
theorem claim_C2_amended_theorem (ts : List ℚ) (h : 2 ≤ ts.length) :
    discardFirstMeasuresFarInTime ts = rejectLeadingOutliersAmended ts := by
  unfold discardFirstMeasuresFarInTime rejectLeadingOutliersAmended
  have h0 := dfmAux_drop (intervals ts) ((intervals ts).length - 1) 1 le_rfl rfl
  simpa using h0

/-- Claim C2 (counterexample): on times [0, 2, 3, 4] the code stops at i = 1
already (4/3 lies inside the wide band around 1) and returns 0, while the
procedure the claim describes, with a true plus-or-minus 10 percent band,
returns 1. -/
theorem claim_C2_counterexample :
    discardFirstMeasuresFarInTime [0, 2, 3, 4] = 0 ∧
      rejectLeadingOutliersTenPercent [0, 2, 3, 4] = 1 ∧
      discardFirstMeasuresFarInTime [0, 2, 3, 4] ≠
        rejectLeadingOutliersTenPercent [0, 2, 3, 4] := by
  norm_num [discardFirstMeasuresFarInTime, rejectLeadingOutliersTenPercent,
    dfmAux, tenPctAux, intervals, qmean]

theorem claim_C2_witness :
    2 ≤ ([0, 1, 5, 6] : List ℚ).length ∧
      discardFirstMeasuresFarInTime [0, 1, 5, 6] =
        rejectLeadingOutliersAmended [0, 1, 5, 6] :=
  ⟨by simp, claim_C2_amended_theorem [0, 1, 5, 6] (by simp)⟩

/-- Claim C9 (amended): discard_first_measures_far_in_time contains no input
check and never raises; with fewer than 2 time points the gap list is empty,
the loop is skipped (np.mean of the empty array only yields nan with a
warning), and the function returns 0. -/
theorem claim_C9_amended_theorem (ts : List ℚ) (h : ts.length < 2) :
    discardFirstMeasuresFarInTime ts = 0 := by
  match ts with
  | [] => rfl
  | [t] => rfl
  | t1 :: t2 :: rest => simp only [List.length_cons] at h; omega

/-- Claim C9 (counterexample): on the single-point series [5] the function
does not fail with InvalidInput; it returns the value 0 normally. -/
theorem claim_C9_counterexample :
    discardFirstMeasuresFarInTime [(5 : ℚ)] = 0 := rfl

theorem claim_C9_witness :
    ([] : List ℚ).length < 2 ∧ discardFirstMeasuresFarInTime ([] : List ℚ) = 0 :=
  ⟨by simp, claim_C9_amended_theorem [] (by simp)⟩

lemma argmaxAux_lt (xs : List ℚ) : ∀ bi bv i, bi < i → argmaxAux xs bi bv i < i + xs.length := by
  induction xs with
  | nil =>
    intro bi bv i hbi
    rw [argmaxAux]
    simpa using hbi
  | cons x xs ih =>
    intro bi bv i hbi
    rw [argmaxAux]
    by_cases hx : bv < x
    · rw [if_pos hx]
      have h2 := ih i x (i + 1) (Nat.lt_succ_self i)
      simp only [List.length_cons]
      omega
    · rw [if_neg hx]
      have h2 := ih bi bv (i + 1) (by omega)
      simp only [List.length_cons]
      omega

lemma npArgmax_lt (l : List ℚ) (h : l ≠ []) : npArgmax l < l.length := by
  match l with
  | [] => exact absurd rfl h
  | x :: xs =>
    have h2 := argmaxAux_lt xs 0 x 1 (by omega)
    rw [npArgmax]
    simp only [List.length_cons]
    omega

lemma gimvAux_mem_lt (k : ℕ) :
    ∀ copy last, copy ≠ ([] : List ℚ) → ∀ j ∈ gimvAux copy last k, j < copy.length := by
  induction k with
  | zero => intro copy last _ j hj; simp [gimvAux] at hj
  | succ k ih =>
    intro copy last hne j hj
    rw [gimvAux] at hj
    have hlen : (copy.set last 0).length = copy.length := by simp
    have hne2 : copy.set last 0 ≠ [] := by
      intro he
      apply hne
      have h3 := congrArg List.length he
      rw [hlen] at h3
      exact List.length_eq_zero.mp h3
    rcases List.mem_cons.mp hj with h1 | h1
    · subst h1
      have h4 := npArgmax_lt (copy.set last 0) hne2
      omega
    · have h4 := ih (copy.set last 0) (npArgmax (copy.set last 0)) hne2 j h1
      omega

lemma getIndexMaxValues_mem_lt (pgram : List ℚ) (nf : ℕ) (h : pgram ≠ []) :
    ∀ j ∈ getIndexMaxValues pgram nf, j < pgram.length := by
  intro j hj
  rw [getIndexMaxValues] at hj
  rcases List.mem_cons.mp hj with h1 | h1
  · subst h1; exact npArgmax_lt pgram h
  · exact gimvAux_mem_lt (nf - 1) pgram (npArgmax pgram) h j h1

lemma getAmplitudeFirstsHarm_eval (pgram : List ℚ) (ls : LSProperties) (n : ℕ)
    (hn : n < ls.index_max_values.length) :
    getAmplitudeFirstsHarm pgram ls n =
      .ok ([if ls.index_max_values.getD n 0 < pgram.length then
              pgram.getD (ls.index_max_values.getD n 0) 0 else 0,
            if ls.index_max_values.getD n 0 * 2 < pgram.length then
              pgram.getD (ls.index_max_values.getD n 0 * 2) 0 else 0,
            if ls.index_max_values.getD n 0 * 3 < pgram.length then
              pgram.getD (ls.index_max_values.getD n 0 * 3) 0 else 0,
            if ls.index_max_values.getD n 0 * 4 < pgram.length then
              pgram.getD (ls.index_max_values.getD n 0 * 4) 0 else 0],
        ["Amp_Harm_0", "Amp_Harm_1", "Amp_Harm_2", "Amp_Harm_3"]) := by
  simp [getAmplitudeFirstsHarm, getAmpHarmN, Nat.not_le.mpr hn, Except.bind]

/-- Claim C5: for a periodgram of length L and a recorded peak number n,
get_amplitude_firsts_harm returns exactly 4 amplitudes, the h-th being
pgram[p * (h + 1)] when p * (h + 1) < L for p = index_max_values[n], and 0
otherwise. -/
theorem claim_C5_harmonic_zero_fill (pgram : List ℚ) (ls : LSProperties) (n : ℕ)
    (hn : n < ls.index_max_values.length) :
    getAmplitudeFirstsHarm pgram ls n =
      .ok (((List.range 4).map fun h =>
          if ls.index_max_values.getD n 0 * (h + 1) < pgram.length then
            pgram.getD (ls.index_max_values.getD n 0 * (h + 1)) 0
          else 0),
        ["Amp_Harm_0", "Amp_Harm_1", "Amp_Harm_2", "Amp_Harm_3"]) ∧
    (((List.range 4).map fun h =>
          if ls.index_max_values.getD n 0 * (h + 1) < pgram.length then
            pgram.getD (ls.index_max_values.getD n 0 * (h + 1)) 0
          else 0)).length = 4 := by
  constructor
  · rw [getAmplitudeFirstsHarm_eval pgram ls n hn]
    simp [List.range_succ]
  · simp

theorem claim_C5_witness :
    0 < ((⟨1, 10000, 200, 3, 0, 0, [2], []⟩ : LSProperties)).index_max_values.length ∧
      (getAmplitudeFirstsHarm [3, 1, 2] ⟨1, 10000, 200, 3, 0, 0, [2], []⟩ 0 =
        .ok (((List.range 4).map fun h =>
            if (⟨1, 10000, 200, 3, 0, 0, [2], []⟩ :
                  LSProperties).index_max_values.getD 0 0 * (h + 1) <
                ([3, 1, 2] : List ℚ).length then
              ([3, 1, 2] : List ℚ).getD
                ((⟨1, 10000, 200, 3, 0, 0, [2], []⟩ :
                  LSProperties).index_max_values.getD 0 0 * (h + 1)) 0
            else 0),
          ["Amp_Harm_0", "Amp_Harm_1", "Amp_Harm_2", "Amp_Harm_3"])) :=
  ⟨by simp,
    (claim_C5_harmonic_zero_fill [3, 1, 2] ⟨1, 10000, 200, 3, 0, 0, [2], []⟩ 0 (by simp)).1⟩

/-- Claim C10: when the peak indexes come from get_index_max_values on a
non-empty periodgram, the first of the four harmonic amplitudes equals the
amplitude feature: the h = 0 harmonic index is index_max_values[n] * 1, a
valid periodgram index. -/
theorem claim_C10_first_harmonic_duplicates_amplitude (pgram : List ℚ) (nf n : ℕ)
    (ls : LSProperties) (hne : pgram ≠ [])
    (hls : ls.index_max_values = getIndexMaxValues pgram nf)
    (hn : n < ls.index_max_values.length) :
    ∃ amp s vals names,
      getAmplitude pgram ls n = .ok (amp, s) ∧
      getAmplitudeFirstsHarm pgram ls n = .ok (vals, names) ∧
      vals.head? = some amp := by
  have hp : ls.index_max_values.getD n 0 < pgram.length := by
    rw [hls] at hn ⊢
    apply getIndexMaxValues_mem_lt pgram nf hne
    rw [List.getD_eq_getElem?_getD, List.getElem?_eq_getElem hn]
    exact List.getElem_mem hn
  refine ⟨pgram.getD (ls.index_max_values.getD n 0) 0, "Fund_Amp_" ++ toString n,
    _, _, ?_, getAmplitudeFirstsHarm_eval pgram ls n hn, ?_⟩
  · rw [getAmplitude, if_pos hn, if_pos hp]
  · simp only [List.head?_cons, if_pos hp]

theorem claim_C10_witness :
    (([1, 3, 2] : List ℚ) ≠ [] ∧
        ((⟨1, 10000, 200, 3, 0, 0, [1, 2, 0], []⟩ : LSProperties)).index_max_values =
          getIndexMaxValues [1, 3, 2] 3 ∧
        0 < ((⟨1, 10000, 200, 3, 0, 0, [1, 2, 0], []⟩ :
          LSProperties)).index_max_values.length) ∧
      ∃ amp s vals names,
        getAmplitude [1, 3, 2] ⟨1, 10000, 200, 3, 0, 0, [1, 2, 0], []⟩ 0 =
          .ok (amp, s) ∧
        getAmplitudeFirstsHarm [1, 3, 2] ⟨1, 10000, 200, 3, 0, 0, [1, 2, 0], []⟩ 0 =
          .ok (vals, names) ∧
        vals.head? = some amp :=
  ⟨⟨by simp, by norm_num [getIndexMaxValues, gimvAux, npArgmax, argmaxAux], by simp⟩,
    claim_C10_first_harmonic_duplicates_amplitude [1, 3, 2] 3 0
      ⟨1, 10000, 200, 3, 0, 0, [1, 2, 0], []⟩
      (by simp) (by norm_num [getIndexMaxValues, gimvAux, npArgmax, argmaxAux]) (by simp)⟩

/-- Claim C1 (code bug evidence): after calculate_periodgram_from_curve has
run on times [0..4] (config first_freq = 1, max_freq_to_seek = 10000,
freq_to_calculate = 4), the stored max_freq_calculated is 10000 but
lsprop.max_freq is still the constructor's 0.0, so
frequency_at(0) = first_freq = 1 while frequency_at(1) = 3/4: the translation
is strictly decreasing and differs from the claimed
first_freq + i * (max_freq_calculated - first_freq) / freq_sample_count. -/
theorem claim_C1_bug :
    (calculatePeriodgramFromCurve (mkLSProperties 1 10000 4 3)
          (fun _ _ freqs => freqs.map fun _ => (0 : ℚ)) [0, 1, 2, 3, 4]
          [1, 2, 3, 4, 5]).map
        (fun r => (r.lsp.max_freq, r.lsp.max_freq_calculated,
          getFreqFromIndex r.lsp.pgram r.lsp 0, getFreqFromIndex r.lsp.pgram r.lsp 1)) =
      .ok (0, 10000, .ok 1, .ok (3 / 4)) ∧
    ¬((1 : ℚ) < 3 / 4) ∧ (3 / 4 : ℚ) ≠ 1 + 1 * (((10000 : ℚ) - 1) / 4) := by
  refine ⟨?_, by norm_num, by norm_num⟩
  norm_num [calculatePeriodgramFromCurve, discardFirstMeasuresFarInTime, dfmAux,
    intervals, qmean, linspace, getIndexMaxValues, gimvAux, npArgmax, argmaxAux,
    mkLSProperties, getFreqFromIndex, Except.map, List.range_succ, List.getLastD]

/-- Claim C7: whenever calculate_periodgram_from_curve succeeds on a series
of at least 2 points, the frequency upper bound it stores is the maximum of
sample_freq / 2 and the configured max_freq_to_seek: the configured cap acts
as a floor. -/
theorem claim_C7_freq_bound (ls : LSProperties)
    (lombscargleFn : List ℚ → List ℚ → List ℚ → List ℚ) (ts ms : List ℚ)
    (h2 : 2 ≤ ts.length)
    (hok : exceptIsOk (calculatePeriodgramFromCurve ls lombscargleFn ts ms) = true) :
    (calculatePeriodgramFromCurve ls lombscargleFn ts ms).map
        (fun r => r.lsp.max_freq_calculated) =
      .ok (max (sampleFreqOf ts / 2) ls.max_freq_to_seek) := by
  have hemp : ts.isEmpty = false := by
    cases ts with
    | nil => simp at h2
    | cons a l => rfl
  simp only [calculatePeriodgramFromCurve, hemp, Bool.false_eq_true, if_false] at hok ⊢
  set fm := discardFirstMeasuresFarInTime ts with hfm
  by_cases hspan : ts.getLastD 0 - ts.getD fm 0 = 0
  · rw [if_pos hspan] at hok
    simp [exceptIsOk] at hok
  · rw [if_neg hspan] at hok ⊢
    set mfc := if ls.max_freq_to_seek <
        ((ts.length : ℚ) - 1 - (fm : ℚ)) / (ts.getLastD 0 - ts.getD fm 0) / 2 then
        ((ts.length : ℚ) - 1 - (fm : ℚ)) / (ts.getLastD 0 - ts.getD fm 0) / 2
      else ls.max_freq_to_seek with hmfc
    set pg := lombscargleFn
        (0 :: ((ts.drop (fm + 1)).map fun t => t - ts.getD fm 0))
        ((ms.take ts.length).drop fm)
        (linspace (1 / 100) mfc ls.freq_to_calculate) with hpgdef
    by_cases hpg : pg.isEmpty = true
    · rw [if_pos hpg] at hok
      simp [exceptIsOk] at hok
    · rw [if_neg hpg]
      simp only [Except.map]
      show Except.ok mfc = Except.ok (max (sampleFreqOf ts / 2) ls.max_freq_to_seek)
      rw [hmfc]
      simp only [sampleFreqOf]
      rw [← hfm]
      rcases lt_or_le ls.max_freq_to_seek
          (((ts.length : ℚ) - 1 - (fm : ℚ)) / (ts.getLastD 0 - ts.getD fm 0) / 2)
        with hlt | hle
      · rw [if_pos hlt, max_eq_left hlt.le]
      · rw [if_neg (not_lt.mpr hle), max_eq_right hle]

theorem claim_C7_witness :
    2 ≤ ([0, 1, 2, 3] : List ℚ).length ∧
      exceptIsOk (calculatePeriodgramFromCurve (mkLSProperties 1 10000 3 3)
          (fun _ _ c => c.map fun _ => (1 : ℚ)) [0, 1, 2, 3] [1, 2, 1, 2]) = true ∧
      (calculatePeriodgramFromCurve (mkLSProperties 1 10000 3 3)
            (fun _ _ c => c.map fun _ => (1 : ℚ)) [0, 1, 2, 3] [1, 2, 1, 2]).map
          (fun r => r.lsp.max_freq_calculated) =
        .ok (max (sampleFreqOf [0, 1, 2, 3] / 2)
          (mkLSProperties 1 10000 3 3).max_freq_to_seek) := by
  have hok : exceptIsOk (calculatePeriodgramFromCurve (mkLSProperties 1 10000 3 3)
      (fun _ _ c => c.map fun _ => (1 : ℚ)) [0, 1, 2, 3] [1, 2, 1, 2]) = true := by
    norm_num [calculatePeriodgramFromCurve, discardFirstMeasuresFarInTime, dfmAux,
      intervals, qmean, linspace, getIndexMaxValues, gimvAux, npArgmax, argmaxAux,
      mkLSProperties, exceptIsOk, List.getLastD, List.range_succ]
  exact ⟨by simp, hok,
    claim_C7_freq_bound (mkLSProperties 1 10000 3 3)
      (fun _ _ c => c.map fun _ => (1 : ℚ)) [0, 1, 2, 3] [1, 2, 1, 2] (by simp) hok⟩

/-- Claim C8: with a non-empty time series, a spectrum function preserving
the frequency-grid length and a non-zero freq_to_calculate,
calculate_periodgram_from_curve fails with DegenerateTimeSpan exactly when
times[last] equals times[first_valid_index], and succeeds whenever the
effective time span is non-zero. -/
theorem claim_C8_degenerate_span (ls : LSProperties)
    (lombscargleFn : List ℚ → List ℚ → List ℚ → List ℚ) (ts ms : List ℚ)
    (hne : ts ≠ [])
    (hfn : ∀ a b c, (lombscargleFn a b c).length = c.length)
    (hc : ls.freq_to_calculate ≠ 0) :
    ((calculatePeriodgramFromCurve ls lombscargleFn ts ms = .error .degenerateTimeSpan) ↔
      ts.getLastD 0 = ts.getD (discardFirstMeasuresFarInTime ts) 0) ∧
    (ts.getLastD 0 ≠ ts.getD (discardFirstMeasuresFarInTime ts) 0 →
      exceptIsOk (calculatePeriodgramFromCurve ls lombscargleFn ts ms) = true) := by
  have hemp : ts.isEmpty = false := by
    cases ts with
    | nil => exact absurd rfl hne
    | cons a l => rfl
  simp only [calculatePeriodgramFromCurve, hemp, Bool.false_eq_true, if_false]
  set fm := discardFirstMeasuresFarInTime ts with hfm
  by_cases hspan : ts.getLastD 0 - ts.getD fm 0 = 0
  · rw [if_pos hspan]
    exact ⟨⟨fun _ => sub_eq_zero.mp hspan, fun _ => rfl⟩,
      fun hne2 => absurd (sub_eq_zero.mp hspan) hne2⟩
  · rw [if_neg hspan]
    set mfc := if ls.max_freq_to_seek <
        ((ts.length : ℚ) - 1 - (fm : ℚ)) / (ts.getLastD 0 - ts.getD fm 0) / 2 then
        ((ts.length : ℚ) - 1 - (fm : ℚ)) / (ts.getLastD 0 - ts.getD fm 0) / 2
      else ls.max_freq_to_seek with hmfc
    set pg := lombscargleFn
        (0 :: ((ts.drop (fm + 1)).map fun t => t - ts.getD fm 0))
        ((ms.take ts.length).drop fm)
        (linspace (1 / 100) mfc ls.freq_to_calculate) with hpgdef
    have hlen : pg.length = ls.freq_to_calculate := by
      rw [hpgdef, hfn, linspace, List.length_map, List.length_range]
    have hpg : ¬(pg.isEmpty = true) := by
      rcases hp2 : pg with _ | ⟨x, xs⟩
      · rw [hp2] at hlen
        simp at hlen
        exact absurd hlen.symm hc
      · simp
    rw [if_neg hpg]
    constructor
    · constructor
      · intro hcon
        exact absurd hcon (by simp)
      · intro heq
        exact absurd (sub_eq_zero.mpr heq) hspan
    · intro _
      rfl

theorem claim_C8_witness :
    (([0, 1, 2] : List ℚ) ≠ [] ∧
        (∀ a b c : List ℚ,
          ((fun (_ _ c : List ℚ) => c.map fun _ => (2 : ℚ)) a b c).length = c.length) ∧
        (mkLSProperties 1 10 3 3).freq_to_calculate ≠ 0) ∧
      ((calculatePeriodgramFromCurve (mkLSProperties 1 10 3 3)
            (fun _ _ c => c.map fun _ => (2 : ℚ)) [0, 1, 2] [1, 2, 3] =
          .error .degenerateTimeSpan) ↔
        ([0, 1, 2] : List ℚ).getLastD 0 =
          ([0, 1, 2] : List ℚ).getD (discardFirstMeasuresFarInTime [0, 1, 2]) 0) ∧
      (([0, 1, 2] : List ℚ).getLastD 0 ≠
          ([0, 1, 2] : List ℚ).getD (discardFirstMeasuresFarInTime [0, 1, 2]) 0 →
        exceptIsOk (calculatePeriodgramFromCurve (mkLSProperties 1 10 3 3)
          (fun _ _ c => c.map fun _ => (2 : ℚ)) [0, 1, 2] [1, 2, 3]) = true) :=
  ⟨⟨by simp, fun a b c => by simp, by norm_num [mkLSProperties]⟩,
    claim_C8_degenerate_span (mkLSProperties 1 10 3 3)
      (fun _ _ c => c.map fun _ => (2 : ℚ)) [0, 1, 2] [1, 2, 3]
      (by simp) (fun a b c => by simp) (by norm_num [mkLSProperties])⟩

/-- Claim C3 (code bug evidence): on the constant series [10, 10, 10] every
point lies within 10 percent of the median, so the claimed feature (the
docstring's percentage of fluxes within the buffer) is 100; the code counts
the out-of-range points among the first N - 1 entries and returns 0. -/
theorem claim_C3_bug :
    (medianBufferRangePercentage [10, 10, 10]).1 = 0 ∧
      medianBufferClaim [10, 10, 10] = 100 ∧
      (medianBufferRangePercentage [10, 10, 10]).1 ≠ medianBufferClaim [10, 10, 10] := by
  norm_num [medianBufferRangePercentage, medianBufferClaim, qmedian, qsort, qsortInsert]

/-- Claim C4 (code bug evidence): on times [0, 1, 3] and magnitudes
[0, -5, 0] the only gap-filtered pair has slope -5, so the claimed maximum
absolute slope is 5; the code compares the signed slope against the running
maximum started at 0 and returns 0. -/
theorem claim_C4_bug :
    (maxSlope [0, -5, 0] [0, 1, 3]).1 = 0 ∧
      maxSlopeClaim [0, -5, 0] [0, 1, 3] = 5 ∧
      (maxSlope [0, -5, 0] [0, 1, 3]).1 ≠ maxSlopeClaim [0, -5, 0] [0, 1, 3] := by
  norm_num [maxSlope, maxSlopeClaim, gapOk, intervals, qmean, qvar, List.range_succ,
    abs_div]

lemma getFundFreq_ok_snd (pgram : List ℚ) (ls : LSProperties) (nf n : ℕ) (v : ℚ × String)
    (h : getFundFreq pgram ls nf n = .ok v) : v.2 = "Fund_Freq_" ++ toString n := by
  rw [getFundFreq] at h
  split at h
  · split at h
    · rcases hg : getFreqFromIndex pgram ls (ls.index_max_values.getD n 0) with e | q
      · rw [hg] at h
        simp [Except.map] at h
      · rw [hg] at h
        simp only [Except.map] at h
        rw [Except.ok.injEq] at h
        subst h
        rfl
    · simp at h
  · simp at h

lemma getAmplitude_ok_snd (pgram : List ℚ) (ls : LSProperties) (n : ℕ) (v : ℚ × String)
    (h : getAmplitude pgram ls n = .ok v) : v.2 = "Fund_Amp_" ++ toString n := by
  rw [getAmplitude] at h
  split at h
  · split at h
    · rw [Except.ok.injEq] at h
      subst h
      rfl
    · simp at h
  · simp at h

lemma getAmplitudeFirstsHarm_ok_parts (pgram : List ℚ) (ls : LSProperties) (n : ℕ)
    (v : List ℚ × List String) (h : getAmplitudeFirstsHarm pgram ls n = .ok v) :
    v.2 = ["Amp_Harm_0", "Amp_Harm_1", "Amp_Harm_2", "Amp_Harm_3"] ∧ v.1.length = 4 := by
  rw [getAmplitudeFirstsHarm] at h
  rcases h0 : getAmpHarmN pgram ls n 0 with e | a0 <;> rw [h0] at h <;>
    simp only [Except.bind] at h
  case error => exact absurd h (by simp)
  rcases h1 : getAmpHarmN pgram ls n 1 with e | a1 <;> rw [h1] at h <;>
    simp only [Except.bind] at h
  case error => exact absurd h (by simp)
  rcases h2 : getAmpHarmN pgram ls n 2 with e | a2 <;> rw [h2] at h <;>
    simp only [Except.bind] at h
  case error => exact absurd h (by simp)
  rcases h3 : getAmpHarmN pgram ls n 3 with e | a3 <;> rw [h3] at h <;>
    simp only [Except.bind] at h
  case error => exact absurd h (by simp)
  rw [Except.ok.injEq] at h
  subst h
  exact ⟨rfl, rfl⟩

lemma freqYOffset_ok_snd (pgram : List ℚ) (v : ℚ × String)
    (h : freqYOffset pgram = .ok v) : v.2 = "Freq_Offset" := by
  cases pgram with
  | nil => simp [freqYOffset] at h
  | cons x rest =>
    simp only [freqYOffset] at h
    rw [Except.ok.injEq] at h
    subst h
    rfl

/-- Claim C6: whenever save_feature succeeds it returns exactly 36 feature
values paired with the 36 feature names, in the fixed documented order:
for n = 0, 1, 2 the fundamental frequency, its amplitude and its 4 harmonic
amplitudes, then the spectrum-floor offset, then the 17 non-periodic
features in table order. -/
theorem claim_C6_feature_vector_shape (sq : ℚ → ℚ) (pgram : List ℚ) (ls : LSProperties)
    (numFreq : ℕ) (nmags ntimes : List ℚ)
    (hok : exceptIsOk (saveFeature sq pgram ls numFreq nmags ntimes) = true) :
    ∃ vals, saveFeature sq pgram ls numFreq nmags ntimes =
        .ok (vals,
          ["Fund_Freq_0", "Fund_Amp_0", "Amp_Harm_0", "Amp_Harm_1", "Amp_Harm_2",
            "Amp_Harm_3", "Fund_Freq_1", "Fund_Amp_1", "Amp_Harm_0", "Amp_Harm_1",
            "Amp_Harm_2", "Amp_Harm_3", "Fund_Freq_2", "Fund_Amp_2", "Amp_Harm_0",
            "Amp_Harm_1", "Amp_Harm_2", "Amp_Harm_3", "Freq_Offset", "Amp_diff",
            "Beyond1st", "Linear_Tren", "Max_Slope", "Median_Abs_Dev",
            "Median_Buff_Range_Percent", "Pair_Slope_Trend", "Percent_Amplitude",
            "Percent_Diff_flux_Percentile", "Skew", "Kurtosis", "Stand_Dev",
            "Flux_Percentile_Ratio_Mid20", "Flux_Percentile_Ratio_Mid35",
            "Flux_Percentile_Ratio_Mid50", "Flux_Percentile_Ratio_Mid65",
            "Flux_Percentile_Ratio_Mid80"]) ∧
      vals.length = 36 := by
  rw [saveFeature] at hok ⊢
  rcases hf0 : getFundFreq pgram ls numFreq 0 with e | f0 <;> rw [hf0] at hok <;>
    simp only [Except.bind] at hok ⊢
  case error => simp [exceptIsOk] at hok
  rcases ha0 : getAmplitude pgram ls 0 with e | a0 <;> rw [ha0] at hok <;>
    simp only [Except.bind] at hok ⊢
  case error => simp [exceptIsOk] at hok
  rcases hh0 : getAmplitudeFirstsHarm pgram ls 0 with e | h0 <;> rw [hh0] at hok <;>
    simp only [Except.bind] at hok ⊢
  case error => simp [exceptIsOk] at hok
  rcases hf1 : getFundFreq pgram ls numFreq 1 with e | f1 <;> rw [hf1] at hok <;>
    simp only [Except.bind] at hok ⊢
  case error => simp [exceptIsOk] at hok
  rcases ha1 : getAmplitude pgram ls 1 with e | a1 <;> rw [ha1] at hok <;>
    simp only [Except.bind] at hok ⊢
  case error => simp [exceptIsOk] at hok
  rcases hh1 : getAmplitudeFirstsHarm pgram ls 1 with e | h1 <;> rw [hh1] at hok <;>
    simp only [Except.bind] at hok ⊢
  case error => simp [exceptIsOk] at hok
  rcases hf2 : getFundFreq pgram ls numFreq 2 with e | f2 <;> rw [hf2] at hok <;>
    simp only [Except.bind] at hok ⊢
  case error => simp [exceptIsOk] at hok
  rcases ha2 : getAmplitude pgram ls 2 with e | a2 <;> rw [ha2] at hok <;>
    simp only [Except.bind] at hok ⊢
  case error => simp [exceptIsOk] at hok
  rcases hh2 : getAmplitudeFirstsHarm pgram ls 2 with e | h2 <;> rw [hh2] at hok <;>
    simp only [Except.bind] at hok ⊢
  case error => simp [exceptIsOk] at hok
  rcases hoff : freqYOffset pgram with e | off <;> rw [hoff] at hok <;>
    simp only [Except.bind] at hok ⊢
  case error => simp [exceptIsOk] at hok
  by_cases hg : ntimes.length < 2 ∨ nmags.length < ntimes.length
  · rw [if_pos hg] at hok
    simp [exceptIsOk] at hok
  · rw [if_neg hg]
    have hn0 := getFundFreq_ok_snd pgram ls numFreq 0 f0 hf0
    have hn1 := getFundFreq_ok_snd pgram ls numFreq 1 f1 hf1
    have hn2 := getFundFreq_ok_snd pgram ls numFreq 2 f2 hf2
    have hm0 := getAmplitude_ok_snd pgram ls 0 a0 ha0
    have hm1 := getAmplitude_ok_snd pgram ls 1 a1 ha1
    have hm2 := getAmplitude_ok_snd pgram ls 2 a2 ha2
    have hp0 := getAmplitudeFirstsHarm_ok_parts pgram ls 0 h0 hh0
    have hp1 := getAmplitudeFirstsHarm_ok_parts pgram ls 1 h1 hh1
    have hp2 := getAmplitudeFirstsHarm_ok_parts pgram ls 2 h2 hh2
    have hoff2 := freqYOffset_ok_snd pgram off hoff
    rw [hn0, hn1, hn2, hm0, hm1, hm2, hp0.1, hp1.1, hp2.1, hoff2]
    exact ⟨_, rfl, by
      simp only [List.length_cons, List.length_append, List.length_nil,
        hp0.2, hp1.2, hp2.2]⟩

theorem claim_C6_witness :
    exceptIsOk (saveFeature (fun q => q) [2, 1, 3, 1] ⟨1, 10000, 4, 3, 0, 0, [2, 0, 1], []⟩
        3 [1, 2, 3, 4] [0, 1, 2, 4]) = true ∧
      ∃ vals, saveFeature (fun q => q) [2, 1, 3, 1] ⟨1, 10000, 4, 3, 0, 0, [2, 0, 1], []⟩
          3 [1, 2, 3, 4] [0, 1, 2, 4] =
        .ok (vals,
          ["Fund_Freq_0", "Fund_Amp_0", "Amp_Harm_0", "Amp_Harm_1", "Amp_Harm_2",
            "Amp_Harm_3", "Fund_Freq_1", "Fund_Amp_1", "Amp_Harm_0", "Amp_Harm_1",
            "Amp_Harm_2", "Amp_Harm_3", "Fund_Freq_2", "Fund_Amp_2", "Amp_Harm_0",
            "Amp_Harm_1", "Amp_Harm_2", "Amp_Harm_3", "Freq_Offset", "Amp_diff",
            "Beyond1st", "Linear_Tren", "Max_Slope", "Median_Abs_Dev",
            "Median_Buff_Range_Percent", "Pair_Slope_Trend", "Percent_Amplitude",
            "Percent_Diff_flux_Percentile", "Skew", "Kurtosis", "Stand_Dev",
            "Flux_Percentile_Ratio_Mid20", "Flux_Percentile_Ratio_Mid35",
            "Flux_Percentile_Ratio_Mid50", "Flux_Percentile_Ratio_Mid65",
            "Flux_Percentile_Ratio_Mid80"]) ∧
        vals.length = 36 := by
  have hok : exceptIsOk (saveFeature (fun q => q) [2, 1, 3, 1]
      ⟨1, 10000, 4, 3, 0, 0, [2, 0, 1], []⟩ 3 [1, 2, 3, 4] [0, 1, 2, 4]) = true := by
    norm_num [saveFeature, getFundFreq, getAmplitude, getAmplitudeFirstsHarm,
      getAmpHarmN, getFreqFromIndex, freqYOffset, Except.bind, Except.map, exceptIsOk]
  exact ⟨hok, claim_C6_feature_vector_shape (fun q => q) [2, 1, 3, 1]
    ⟨1, 10000, 4, 3, 0, 0, [2, 0, 1], []⟩ 3 [1, 2, 3, 4] [0, 1, 2, 4] hok⟩

end Clavel
